import Mathlib

/-!
Verification development for the Throttled Upstream Completion Gateway
(`api/evaluate.js` and its `part_005` variant).

The gateway code is shallowly embedded: JSON values are an inductive type,
`JSON.parse` is modelled by a small executable JSON parser, the retry loop
`callOpenAIWithRetries` of each source version becomes a fuel-indexed
recursion over a stream of attempt outcomes (the nondeterministic network
is an input stream), and the request handler becomes a function from a
request context to the response it produces together with a record of
which effects (throttling, the outbound upstream call) it performed.

Numbers: the JSON texts relevant here carry short decimal numerals, which
IEEE doubles represent exactly, so JSON numbers are modelled as exact
decimals `mantissa * 10^(-scale)` in normal form (trailing zeros stripped),
making number equality coincide with JavaScript number equality on these
values.  `Math.floor(Math.random() * m)` produces an arbitrary integer in
`[0, m)`; it is modelled as an input stream of naturals, with the bound
taken as a hypothesis by the theorems that use it.  Backoff delays of the
first source version are exact integer milliseconds; the `part_005`
variant multiplies by `1.5` and `0.1`, so its delays are measured in units
of 1/80 millisecond, in which all reachable values are exact integers.
-/

/-- JSON values, as produced by `JSON.parse`.  A number is the exact
decimal `mant * 10^(-scale)` with `mant` not divisible by 10 unless
`scale = 0`.  Object fields are kept in insertion order; duplicate keys
are resolved during parsing exactly as in JavaScript (last value wins,
first position kept), so a `Json.obj` value always has distinct keys,
like a JavaScript object. -/
inductive Json where
  | null : Json
  | bool (b : Bool) : Json
  | num (mant : Int) (scale : Nat) : Json
  | str (s : String) : Json
  | arr (elems : List Json) : Json
  | obj (fields : List (String × Json)) : Json

/-- The double-quote character. -/
def dquote : Char := Char.ofNat 34

/-- The backslash character. -/
def bslash : Char := Char.ofNat 92

/-- The opening-brace character. -/
def lbrace : Char := Char.ofNat 123

/-- The closing-brace character. -/
def rbrace : Char := Char.ofNat 125

/-- JSON whitespace (the four characters `JSON.parse` skips). -/
def isWs (c : Char) : Bool :=
  c == ' ' || c == Char.ofNat 9 || c == Char.ofNat 10 || c == Char.ofNat 13

/-- Drop leading JSON whitespace. -/
def skipWs : List Char → List Char
  | [] => []
  | c :: t => if isWs c then skipWs t else c :: t

/-- Decimal digit test. -/
def isDigit (c : Char) : Bool := '0' ≤ c && c ≤ '9'

/-- Split a leading run of decimal digits from the rest. -/
def splitDigits : List Char → (List Char × List Char)
  | [] => ([], [])
  | c :: t =>
    if isDigit c then
      let p := splitDigits t
      (c :: p.1, p.2)
    else ([], c :: t)

/-- Value of a digit string. -/
def digitsToNat (ds : List Char) : Nat :=
  ds.foldl (fun a c => a * 10 + (c.toNat - 48)) 0

/-- Integer part of a JSON number: `0`, or a nonzero digit followed by
digits (JSON forbids leading zeros). -/
def parseIntPart : List Char → Option (Nat × List Char)
  | [] => none
  | c :: t =>
    if c == '0' then some (0, t)
    else if isDigit c then
      let p := splitDigits t
      some (digitsToNat (c :: p.1), p.2)
    else none

/-- Optional fractional part of a JSON number: the digits after the dot. -/
def parseFracDigits : List Char → Option (List Char × List Char)
  | '.' :: t =>
    let p := splitDigits t
    if p.1.isEmpty then none else some (p.1, p.2)
  | cs => some ([], cs)

/-- Optional exponent part of a JSON number. -/
def parseExp : List Char → Option (Int × List Char)
  | [] => some (0, [])
  | c :: t =>
    if c == 'e' || c == 'E' then
      let signAndRest : (Bool × List Char) :=
        match t with
        | '+' :: u => (false, u)
        | '-' :: u => (true, u)
        | _ => (false, t)
      let p := splitDigits signAndRest.2
      if p.1.isEmpty then none
      else
        some ((if signAndRest.1 then -(digitsToNat p.1 : Int) else (digitsToNat p.1 : Int)), p.2)
    else some (0, c :: t)

/-- Strip trailing decimal zeros: bring `m * 10^(-s)` into normal form. -/
def normMant : Int → Nat → (Int × Nat)
  | m, 0 => (m, 0)
  | m, s + 1 =>
    if m = 0 then (0, 0)
    else if m % 10 = 0 then normMant (m / 10) s
    else (m, s + 1)

/-- Assemble a parsed JSON number from its sign, integer digits value,
fraction digit list and exponent, as a normal-form exact decimal. -/
def buildNum (neg : Bool) (ip : Nat) (fds : List Char) (e : Int) : (Int × Nat) :=
  let mag : Nat := ip * 10 ^ fds.length + digitsToNat fds
  let m0 : Int := if neg then -(mag : Int) else (mag : Int)
  let s0 : Int := (fds.length : Int) - e
  if 0 ≤ s0 then normMant m0 s0.toNat else (m0 * 10 ^ (-s0).toNat, 0)

/-- Magnitude of a JSON number (everything after an optional minus sign). -/
def parseNumCore (neg : Bool) (cs : List Char) : Option ((Int × Nat) × List Char) :=
  match parseIntPart cs with
  | none => none
  | some (ip, r1) =>
    match parseFracDigits r1 with
    | none => none
    | some (fds, r2) =>
      match parseExp r2 with
      | none => none
      | some (e, r3) => some (buildNum neg ip fds e, r3)

/-- A JSON number, with optional leading minus sign. -/
def parseNumber : List Char → Option ((Int × Nat) × List Char)
  | '-' :: t => parseNumCore true t
  | cs => parseNumCore false cs

/-- Hexadecimal digit value. -/
def hexVal (c : Char) : Option Nat :=
  if isDigit c then some (c.toNat - 48)
  else if 'a' ≤ c && c ≤ 'f' then some (c.toNat - 97 + 10)
  else if 'A' ≤ c && c ≤ 'F' then some (c.toNat - 65 + 10)
  else none

/-- Body of a JSON string after the opening quote: returns the decoded
characters and the input remaining after the closing quote.  Raw control
characters are rejected, escapes are decoded, exactly as `JSON.parse`. -/
def parseStrChars : List Char → Option (List Char × List Char)
  | [] => none
  | c :: t =>
    if c == dquote then some ([], t)
    else if c == bslash then
      match t with
      | [] => none
      | e :: t2 =>
        if e == dquote || e == bslash || e == '/' then
          match parseStrChars t2 with
          | some (s, r) => some (e :: s, r)
          | none => none
        else if e == 'b' then
          match parseStrChars t2 with
          | some (s, r) => some (Char.ofNat 8 :: s, r)
          | none => none
        else if e == 'f' then
          match parseStrChars t2 with
          | some (s, r) => some (Char.ofNat 12 :: s, r)
          | none => none
        else if e == 'n' then
          match parseStrChars t2 with
          | some (s, r) => some (Char.ofNat 10 :: s, r)
          | none => none
        else if e == 'r' then
          match parseStrChars t2 with
          | some (s, r) => some (Char.ofNat 13 :: s, r)
          | none => none
        else if e == 't' then
          match parseStrChars t2 with
          | some (s, r) => some (Char.ofNat 9 :: s, r)
          | none => none
        else if e == 'u' then
          match t2 with
          | h1 :: h2 :: h3 :: h4 :: t3 =>
            match hexVal h1, hexVal h2, hexVal h3, hexVal h4 with
            | some a, some b, some c2, some d =>
              match parseStrChars t3 with
              | some (s, r) => some (Char.ofNat (((a * 16 + b) * 16 + c2) * 16 + d) :: s, r)
              | none => none
            | _, _, _, _ => none
          | _ => none
        else none
    else if c.toNat < 32 then none
    else
      match parseStrChars t with
      | some (s, r) => some (c :: s, r)
      | none => none

/-- Insert a field into a JavaScript-object field list: an existing key
keeps its position and gets the new value, a new key is appended. -/
def objInsert (fields : List (String × Json)) (k : String) (v : Json) :
    List (String × Json) :=
  match fields with
  | [] => [(k, v)]
  | (k', v') :: t => if k' == k then (k', v) :: t else (k', v') :: objInsert t k v

mutual

/-- Parse one JSON value (leading whitespace allowed), fuel-indexed. -/
def parseVal : Nat → List Char → Option (Json × List Char)
  | 0, _ => none
  | f + 1, cs =>
    match skipWs cs with
    | [] => none
    | c :: t =>
      if c == dquote then
        match parseStrChars t with
        | some (s, r) => some (.str (String.mk s), r)
        | none => none
      else if c == lbrace then parseObjBody f t [] true
      else if c == '[' then parseArrBody f t [] true
      else if c == 't' then
        match t with
        | 'r' :: 'u' :: 'e' :: r => some (.bool true, r)
        | _ => none
      else if c == 'f' then
        match t with
        | 'a' :: 'l' :: 's' :: 'e' :: r => some (.bool false, r)
        | _ => none
      else if c == 'n' then
        match t with
        | 'u' :: 'l' :: 'l' :: r => some (.null, r)
        | _ => none
      else
        match parseNumber (c :: t) with
        | some (mn, r) => some (.num mn.1 mn.2, r)
        | none => none

/-- Parse the members of a JSON object after `{` (when `first` is true)
or after a separating comma. -/
def parseObjBody : Nat → List Char → List (String × Json) → Bool →
    Option (Json × List Char)
  | 0, _, _, _ => none
  | f + 1, cs, acc, first =>
    match skipWs cs with
    | [] => none
    | c :: t =>
      if first && c == rbrace then some (.obj acc, t)
      else if c == dquote then
        match parseStrChars t with
        | none => none
        | some (k, r1) =>
          match skipWs r1 with
          | ':' :: r2 =>
            match parseVal f r2 with
            | none => none
            | some (v, r3) =>
              let acc' := objInsert acc (String.mk k) v
              match skipWs r3 with
              | c2 :: r4 =>
                if c2 == rbrace then some (.obj acc', r4)
                else if c2 == ',' then parseObjBody f r4 acc' false
                else none
              | [] => none
          | _ => none
      else none

/-- Parse the elements of a JSON array after `[` (when `first` is true)
or after a separating comma. -/
def parseArrBody : Nat → List Char → List Json → Bool →
    Option (Json × List Char)
  | 0, _, _, _ => none
  | f + 1, cs, acc, first =>
    match skipWs cs with
    | [] => none
    | c :: t =>
      if first && c == ']' then some (.arr acc.reverse, t)
      else
        match parseVal f (c :: t) with
        | none => none
        | some (v, r1) =>
          match skipWs r1 with
          | c2 :: r2 =>
            if c2 == ']' then some (.arr (v :: acc).reverse, r2)
            else if c2 == ',' then parseArrBody f r2 (v :: acc) false
            else none
          | [] => none

end

/-- Model of `JSON.parse`: parse a complete JSON text (a single value,
optionally surrounded by whitespace); `none` models a thrown `SyntaxError`. -/
def parseJson (s : String) : Option Json :=
  match parseVal (s.data.length + 1) s.data with
  | some (v, rest) => if (skipWs rest).isEmpty then some v else none
  | none => none

/-- Index of the first occurrence of a character (JavaScript
`String.prototype.indexOf`, with `none` for `-1`). -/
def idxOfChar (c : Char) : List Char → Option Nat
  | [] => none
  | x :: t => if x == c then some 0 else (idxOfChar c t).map (· + 1)

/-- Index of the last occurrence of a character (JavaScript
`String.prototype.lastIndexOf`, with `none` for `-1`). -/
def lastIdxOfChar (c : Char) (l : List Char) : Option Nat :=
  (idxOfChar c l.reverse).map (fun i => l.length - 1 - i)

/-- JavaScript `String.prototype.slice(a, b)` for `0 ≤ a`, `0 ≤ b`
(empty when `b ≤ a`, as in JavaScript). -/
def jsSlice (l : List Char) (a b : Nat) : List Char := (l.drop a).take (b - a)

/-- Outcome of the handler's extraction stage on the upstream message
content (lines 229-258 of `api/evaluate.js`): `noJson` is the 502
"Model did not return JSON" branch (a brace is absent), `parseFail` the
502 "Failed to parse JSON from model" branch, `parsed v` the success. -/
inductive ExtractResult where
  | noJson : ExtractResult
  | parseFail : ExtractResult
  | parsed (v : Json) : ExtractResult

/-- The extraction heuristic of the handler: take the substring from the
first `\x7b` to the last `\x7d` of the content and `JSON.parse` it. -/
def extractContent (content : String) : ExtractResult :=
  match idxOfChar lbrace content.data, lastIdxOfChar rbrace content.data with
  | some st, some en =>
    match parseJson (String.mk (jsSlice content.data st (en + 1))) with
    | some v => .parsed v
    | none => .parseFail
  | _, _ => .noJson

/-- JavaScript truthiness of a JSON value. -/
def jsTruthy : Json → Bool
  | .null => false
  | .bool b => b
  | .num m _ => m != 0
  | .str s => s != ""
  | .arr _ => true
  | .obj _ => true

/-- Truthiness of a possibly-undefined value (`none` = `undefined`). -/
def truthyO : Option Json → Bool
  | none => false
  | some v => jsTruthy v

/-- Look up a key in an object field list. -/
def lookupField : List (String × Json) → String → Option Json
  | [], _ => none
  | (k', v) :: t, k => if k' == k then some v else lookupField t k

/-- JavaScript property access `v[k]` on a JSON value: a named property
of a non-object (number, string, boolean, array) is `undefined`. -/
def jsGet : Json → String → Option Json
  | .obj fs, k => lookupField fs k
  | _, _ => none

/-- Fields produced by JavaScript object spread `{...d}`: an object's own
fields; an array spreads to its index-keyed elements; a string spreads to
its index-keyed characters; numbers and booleans (and null, though the
sanitizer never spreads null) contribute nothing. -/
def spreadFields : Json → List (String × Json)
  | .obj fs => fs
  | .arr elems => elems.enum.map (fun p => (toString p.1, p.2))
  | .str s => s.data.enum.map (fun p => (toString p.1, Json.str (String.mk [p.2])))
  | _ => []

/-- The body `{ ...d, text: (d.text || "").slice(0, 3000) }` of the
sanitizer's document map, for a non-null document.  A string `text` is
sliced to its first 3000 characters; an array `text` also has a `.slice`
in JavaScript, keeping its first 3000 elements; `none` models the
`TypeError` thrown by `.slice` on any other truthy value (a number,
boolean or plain object has no `.slice`). -/
def sanitizeDocBody (d : Json) : Option Json :=
  let t : Json :=
    match jsGet d "text" with
    | some tv => if jsTruthy tv then tv else Json.str ""
    | none => Json.str ""
  match t with
  | .str s => some (.obj (objInsert (spreadFields d) "text" (.str (String.mk (s.data.take 3000)))))
  | .arr elems => some (.obj (objInsert (spreadFields d) "text" (.arr (elems.take 3000))))
  | _ => none

/-- One document through the sanitizer's map
`d => ({ ...d, text: (d.text || "").slice(0, 3000) })`
(lines 33-36 of `api/evaluate.js`).  `none` models a thrown `TypeError`:
reading `.text` of `null`, or calling `.slice` on a truthy non-string. -/
def sanitizeDoc (d : Json) : Option Json :=
  match d with
  | .null => none
  | _ => sanitizeDocBody d

/-- `Array.prototype.map` over the (at most one) kept document; the first
thrown `TypeError` aborts. -/
def mapDocs : List Json → Option (List Json)
  | [] => some []
  | d :: t =>
    match sanitizeDoc d, mapDocs t with
    | some d', some t' => some (d' :: t')
    | _, _ => none

/-- JavaScript property assignment `v[k] = x` on a JSON value (the
sanitizer only assigns to objects). -/
def jsSet (v : Json) (k : String) (x : Json) : Json :=
  match v with
  | .obj fs => .obj (objInsert fs k x)
  | _ => v

/-- The Payload Sanitizer `sanitizeReferral` (lines 30-39 of
`api/evaluate.js`): deep-copy `r || {}` (the identity on immutable JSON
values), then, if `copy.documents` is an array, keep only its first
element with its `text` truncated to 3000 characters.  `none` models a
thrown `TypeError` from the document map. -/
def sanitizeReferral (r : Json) : Option Json :=
  let copy := if jsTruthy r then r else Json.obj []
  match jsGet copy "documents" with
  | some (Json.arr ds) =>
    match mapDocs (ds.take 1) with
    | some ds' => some (jsSet copy "documents" (Json.arr ds'))
    | none => none
  | _ => some copy

/-- One upstream HTTP response as consumed by the retry loop: its status,
its parsed numeric `retry-after` header (`none` when absent or
non-numeric, which `Number(... || 0)` turns into a falsy value), the
message content eventually read out of a 2xx body
(`data?.choices?.[0]?.message?.content || ""`), and the error body text
read on a non-2xx status. -/
structure HttpResp where
  status : Nat
  retryAfter : Option Nat
  content : String
  errText : String
deriving DecidableEq

/-- What one `fetch` attempt does: return a response, or fail at the
transport level (the promise rejects without an HTTP status). -/
inductive AttemptOutcome where
  | resp (r : HttpResp) : AttemptOutcome
  | netErr (msg : String) : AttemptOutcome
deriving DecidableEq

/-- One backoff wait performed by a retry loop, recording the (1-based)
attempt it followed, the status and `retry-after` header that caused it,
and the waited delay. -/
inductive RetryEvent where
  | httpWait (attempt status : Nat) (retryAfter : Option Nat) (delay : Nat) : RetryEvent
  | netWait (attempt : Nat) (delay : Nat) : RetryEvent
deriving DecidableEq

/-- Result of a retry loop: `okResp` a 2xx return, `errResp` a terminal
return that still carries the response, `exhausted` a terminal return
without a response (`!resp`), `thrown` an exception escaping the loop
(possible only in the `api/evaluate.js` version, whose `fetch` is not
wrapped in try/catch).  Each carries the number of attempts issued and
the trace of backoff waits performed. -/
inductive CallResult where
  | okResp (r : HttpResp) (attempts : Nat) (tr : List RetryEvent) : CallResult
  | errResp (r : HttpResp) (errText : String) (attempts : Nat) (tr : List RetryEvent) : CallResult
  | exhausted (errText : String) (attempts : Nat) (tr : List RetryEvent) : CallResult
  | thrown (msg : String) (attempts : Nat) (tr : List RetryEvent) : CallResult
deriving DecidableEq

/-- The backoff waits of a call result. -/
def CallResult.waits : CallResult → List RetryEvent
  | .okResp _ _ t => t
  | .errResp _ _ _ t => t
  | .exhausted _ _ t => t
  | .thrown _ _ t => t

/-- The number of attempts a call result issued. -/
def CallResult.attemptCount : CallResult → Nat
  | .okResp _ a _ => a
  | .errResp _ _ a _ => a
  | .exhausted _ a _ => a
  | .thrown _ a _ => a

/-- Whether a call result is an escaped exception. -/
def CallResult.isThrown : CallResult → Bool
  | .thrown _ _ _ => true
  | _ => false

/-- Backoff delay of `api/evaluate.js` (lines 81-86), in milliseconds:
`retry-after` seconds when the header is truthy, else `400 * 2^(attempt-1)`,
plus jitter, the sum capped at 4000. -/
def nextDelayV1 (attempt retryAfter jitter : Nat) : Nat :=
  let base := if retryAfter ≠ 0 then retryAfter * 1000 else 400 * 2 ^ (attempt - 1)
  min 4000 (base + jitter)

/-- The retry loop of `api/evaluate.js` (lines 45-92).  `outcomes n` is
what the `fetch` of 0-based attempt `n` does; `jit n` is the jitter
`Math.floor(Math.random() * 200)` drawn before the wait that follows
attempt `n` (an arbitrary natural `< 200`).  A transport failure is NOT
caught: it escapes as `thrown`. -/
def callLoopV1 (outcomes : Nat → AttemptOutcome) (jit : Nat → Nat) (maxA : Nat) :
    Nat → Nat → String → List RetryEvent → CallResult
  | attempt, 0, lastErr, tr => .exhausted lastErr attempt tr
  | attempt, fuel + 1, lastErr, tr =>
    match outcomes attempt with
    | .netErr msg => .thrown msg (attempt + 1) tr
    | .resp r =>
      if 200 ≤ r.status ∧ r.status < 300 then .okResp r (attempt + 1) tr
      else if ¬(r.status = 429 ∨ r.status = 500 ∨ r.status = 502 ∨
                r.status = 503 ∨ r.status = 504) ∨ maxA ≤ attempt + 1 then
        .errResp r r.errText (attempt + 1) tr
      else
        callLoopV1 outcomes jit maxA (attempt + 1) fuel r.errText
          (tr ++ [.httpWait (attempt + 1) r.status r.retryAfter
            (nextDelayV1 (attempt + 1) (r.retryAfter.getD 0) (jit attempt))])

/-- `callOpenAIWithRetries` of `api/evaluate.js` with explicit attempt
ceiling (`while (attempt < maxAttempts)` becomes fuel `maxAttempts`). -/
def callOpenAIWithRetries (outcomes : Nat → AttemptOutcome) (jit : Nat → Nat)
    (maxAttempts : Nat) : CallResult :=
  callLoopV1 outcomes jit maxAttempts 0 maxAttempts "" []

/-- `callOpenAIWithRetries` at its default ceiling `maxAttempts = 4`, as
the handler invokes it. -/
def callV1 (outcomes : Nat → AttemptOutcome) (jit : Nat → Nat) : CallResult :=
  callOpenAIWithRetries outcomes jit 4

/-- `(3/2)^k * ms`, measured in units of 1/80 ms (exact for `k ≤ 6`
when `80 * ms` is divisible by `2^6`; the loops only reach `k ≤ 3`). -/
def halfPowScaled (ms k : Nat) : Nat := (ms * 80 * 3 ^ k) / 2 ^ k

/-- Pre-jitter backoff delay of the `part_005` variant for a retryable
HTTP status (lines 115-128), in units of 1/80 ms: for 429, the full
`retry-after` seconds when positive, else `1000ms * 2^(attempt-1)` capped
at 30 s; for 5xx, `500ms * 1.5^(attempt-1)` capped at 8 s. -/
def nextDelayP5Base (status retryAfter attempt : Nat) : Nat :=
  if status = 429 then
    if 0 < retryAfter then retryAfter * 1000 * 80
    else min (30000 * 80) (1000 * 80 * 2 ^ (attempt - 1))
  else min (8000 * 80) (halfPowScaled 500 (attempt - 1))

/-- Backoff delay of the `part_005` variant after a transport failure
(line 155), in units of 1/80 ms: `1000ms * 1.5^(attempt-1)` capped at 5 s,
with no jitter. -/
def nextDelayP5Net (attempt : Nat) : Nat :=
  min (5000 * 80) (halfPowScaled 1000 (attempt - 1))

/-- The retry loop of the `part_005` variant (lines 66-165).  Everything
runs inside try/catch, so a transport failure is retried, and after the
last attempt the loop returns a terminal failure with error text
`"Network error: ..."` instead of raising.  `jit n` is the jitter in whole
milliseconds (`Math.floor(Math.random() * Math.min(1000, delay * 0.1))`)
drawn after attempt `n`; delays are in units of 1/80 ms. -/
def callLoopP5 (outcomes : Nat → AttemptOutcome) (jit : Nat → Nat) (maxA : Nat) :
    Nat → Nat → String → List RetryEvent → CallResult
  | attempt, 0, lastErr, tr => .exhausted lastErr attempt tr
  | attempt, fuel + 1, lastErr, tr =>
    match outcomes attempt with
    | .netErr msg =>
      if maxA ≤ attempt + 1 then .exhausted ("Network error: " ++ msg) (attempt + 1) tr
      else
        callLoopP5 outcomes jit maxA (attempt + 1) fuel lastErr
          (tr ++ [.netWait (attempt + 1) (nextDelayP5Net (attempt + 1))])
    | .resp r =>
      if 200 ≤ r.status ∧ r.status < 300 then .okResp r (attempt + 1) tr
      else if ¬(r.status = 429 ∨ r.status = 500 ∨ r.status = 502 ∨
                r.status = 503 ∨ r.status = 504) ∨ maxA ≤ attempt + 1 then
        .errResp r r.errText (attempt + 1) tr
      else
        callLoopP5 outcomes jit maxA (attempt + 1) fuel r.errText
          (tr ++ [.httpWait (attempt + 1) r.status r.retryAfter
            (nextDelayP5Base r.status (r.retryAfter.getD 0) (attempt + 1) + 80 * jit attempt)])

/-- `callOpenAIWithRetries` of the `part_005` variant with explicit
attempt ceiling. -/
def callOpenAIWithRetriesP5 (outcomes : Nat → AttemptOutcome) (jit : Nat → Nat)
    (maxAttempts : Nat) : CallResult :=
  callLoopP5 outcomes jit maxAttempts 0 maxAttempts "" []

/-- The `part_005` retry loop at its default ceiling `maxAttempts = 5`. -/
def callP5 (outcomes : Nat → AttemptOutcome) (jit : Nat → Nat) : CallResult :=
  callOpenAIWithRetriesP5 outcomes jit 5

/-- Is an optional JSON value a given string?  This is JavaScript
`v === "s"`: true only when the value is that exact string. -/
def isStrEq (v : Option Json) (s : String) : Bool :=
  match v with
  | some (.str s') => s' == s
  | _ => false

/-- The handler's debug flag (lines 103-113 of `api/evaluate.js`):
`debug = searchParams.get("debug") === "1"`, then the `x-debug` header
(`"1"` or `"true"`) can turn it on. -/
def computeDebug (debugParam xDebug : Option String) : Bool :=
  let d := debugParam = some "1"
  if d then true
  else if xDebug = some "1" ∨ xDebug = some "true" then true
  else d

/-- An incoming request as the handler consumes it: the HTTP method, the
`debug` query parameter (`none` when absent or the URL fails to parse),
the `x-debug` header, the JSON-parsed request body, and whether the
`OPENAI_API_KEY` environment variable is set. -/
structure HandlerCtx where
  method : String
  debugParam : Option String
  xDebug : Option String
  body : Json
  hasKey : Bool

/-- The response the handler sends: its HTTP status, whether `ok: true`
was included, the `error` field, the `result` field, and the `raw` field
(the raw model text, present only when emitted). -/
structure HandlerResponse where
  status : Nat
  okFlag : Bool
  errorMsg : Option String
  result : Option Json
  raw : Option String

/-- An error response: `res.status(status).json({ error: msg, ... })`;
none of the error branches include `ok: true`, a `result`, or `raw`
(the two 502 parse-stage branches build their `raw` separately). -/
def errResponse (status : Nat) (msg : String) : HandlerResponse :=
  ⟨status, false, some msg, none, none⟩

/-- The handler's extraction-and-respond stage on a 2xx upstream body
(lines 227-278 of `api/evaluate.js`), shared by all three tasks: locate
braces, parse, and return the parsed payload as-is with status 200; the
raw content is attached exactly when `debug` is set. -/
def respondParsed (debug : Bool) (content : String) : HandlerResponse :=
  match extractContent content with
  | .noJson =>
    ⟨502, false, some "Model did not return JSON", none,
      if debug then some content else none⟩
  | .parseFail =>
    ⟨502, false, some "Failed to parse JSON from model", none,
      if debug then some content else none⟩
  | .parsed v =>
    ⟨200, true, none, some v, if debug then some content else none⟩

/-- The handler's treatment of the retry loop's result (lines 210-278):
a missing or non-2xx response becomes an "OpenAI error" with the
response's status (502 when there is none); an exception escaping the
loop is caught by the handler's top-level catch as a 500 "Server error";
a 2xx response goes through extraction. -/
def respondAfterCall (debug : Bool) : CallResult → HandlerResponse
  | .okResp r _ _ => respondParsed debug r.content
  | .errResp r _ _ _ => errResponse (if r.status = 0 then 502 else r.status) "OpenAI error"
  | .exhausted _ _ _ => errResponse 502 "OpenAI error"
  | .thrown _ _ _ => errResponse 500 "Server error"

/-- A handler run: the response sent, whether `throttleGlobal()` was
awaited (an admission token consumed), whether `callOpenAIWithRetries`
was invoked, and the sanitized referral embedded in the outbound prompt
when a call was made. -/
structure HandlerRun where
  response : HandlerResponse
  didThrottle : Bool
  didCall : Bool
  sentReferral : Option Json

/-- `body || {}` followed by destructuring: the object the handler reads
`task` and `referral` from. -/
def bodyObjOf (ctx : HandlerCtx) : Json :=
  if jsTruthy ctx.body then ctx.body else Json.obj []

/-- The request's `task` value (`none` = `undefined`). -/
def taskOf (ctx : HandlerCtx) : Option Json := jsGet (bodyObjOf ctx) "task"

/-- The request's `referral` value (`none` = `undefined`). -/
def referralOf (ctx : HandlerCtx) : Option Json := jsGet (bodyObjOf ctx) "referral"

/-- Is the task one of the three the prompt-template chain accepts? -/
def taskSupported (t : Option Json) : Bool :=
  isStrEq t "completeness" || isStrEq t "auth" || isStrEq t "bundle"

/-- The handler of `api/evaluate.js` (lines 96-283), as a function of the
request context and the upstream nondeterminism.  Stages in source
order: method check (405), debug flag, body destructuring and the
missing-field check (400, before the key check), key check (500),
`sanitizeReferral` (line 140; a `TypeError` there is caught by the
top-level catch as a 500 "Server error"), the task template chain with
its "Unsupported task" 400, then — only on the full path —
`throttleGlobal()` and `callOpenAIWithRetries` at ceiling 4. -/
def handler (ctx : HandlerCtx) (outcomes : Nat → AttemptOutcome) (jit : Nat → Nat) :
    HandlerRun :=
  if ctx.method ≠ "POST" then ⟨errResponse 405 "Method not allowed", false, false, none⟩
  else
    let debug := computeDebug ctx.debugParam ctx.xDebug
    if truthyO (taskOf ctx) = false ∨ truthyO (referralOf ctx) = false then
      ⟨errResponse 400 "Missing task or referral", false, false, none⟩
    else if ctx.hasKey = false then
      ⟨errResponse 500 "Server missing OPENAI_API_KEY", false, false, none⟩
    else
      match sanitizeReferral ((referralOf ctx).getD Json.null) with
      | none => ⟨errResponse 500 "Server error", false, false, none⟩
      | some safeReferral =>
        if taskSupported (taskOf ctx) = false then
          ⟨errResponse 400 "Unsupported task", false, false, none⟩
        else
          ⟨respondAfterCall debug (callV1 outcomes jit), true, true, some safeReferral⟩

/-- The `score` field of the payload a response returned. -/
def responseScore (h : HandlerResponse) : Option Json :=
  match h.result with
  | some v => jsGet v "score"
  | none => none

/-- Shape of every backoff wait the `api/evaluate.js` loop can record: it
follows a non-2xx retryable HTTP response of some attempt `a < maxA`, and
its delay is `nextDelayV1` of that response's `retry-after` header and the
jitter drawn for that attempt. -/
def goodWaitV1 (o : Nat → AttemptOutcome) (j : Nat → Nat) (m : Nat) : RetryEvent → Prop
  | .httpWait a st ra d =>
      1 ≤ a ∧ a < m ∧ ∃ r, o (a - 1) = .resp r ∧ st = r.status ∧ ra = r.retryAfter ∧
        d = nextDelayV1 a (r.retryAfter.getD 0) (j (a - 1))
  | .netWait _ _ => False

/-- Shape of every backoff wait the `part_005` loop can record: an HTTP
wait carries `nextDelayP5Base` plus the drawn jitter, a network wait
carries `nextDelayP5Net`. -/
def goodWaitP5 (o : Nat → AttemptOutcome) (j : Nat → Nat) (m : Nat) : RetryEvent → Prop
  | .httpWait a st ra d =>
      1 ≤ a ∧ a < m ∧ ∃ r, o (a - 1) = .resp r ∧ st = r.status ∧ ra = r.retryAfter ∧
        d = nextDelayP5Base r.status (r.retryAfter.getD 0) a + 80 * j (a - 1)
  | .netWait a d =>
      1 ≤ a ∧ a < m ∧ (∃ msg, o (a - 1) = .netErr msg) ∧ d = nextDelayP5Net a

/-- A 10,000-character extracted document text (scenario fixture). -/
def longText : String := String.mk (List.replicate 10000 'x')

/-- A document whose extracted text is 10,000 characters long. -/
def exDoc1 : Json := Json.obj [("name", Json.str "referral.pdf"), ("text", Json.str longText)]

/-- A small attached document (scenario fixture). -/
def exDoc (k : Nat) : Json := Json.obj [("name", Json.str (toString k)), ("text", Json.str "note")]

/-- A referral with five attached documents, the first carrying a
10,000-character text (the spec's scenario E). -/
def exReferral : Json := Json.obj [("id", Json.str "r9"),
  ("documents", Json.arr [exDoc1, exDoc 2, exDoc 3, exDoc 4, exDoc 5])]

/-- The `api/evaluate.js` loop issues at most `attempt + fuel` attempts. -/
theorem callLoopV1_attempts_le (o : Nat → AttemptOutcome) (j : Nat → Nat) (m : Nat) :
    ∀ (fuel attempt : Nat) (lastErr : String) (tr : List RetryEvent),
      (callLoopV1 o j m attempt fuel lastErr tr).attemptCount ≤ attempt + fuel := by
  intro fuel
  induction fuel with
  | zero => intro attempt lastErr tr; simp [callLoopV1, CallResult.attemptCount]
  | succ f ih =>
    intro attempt lastErr tr
    simp only [callLoopV1]
    split
    · simp only [CallResult.attemptCount]; omega
    · split
      · simp only [CallResult.attemptCount]; omega
      · split
        · simp only [CallResult.attemptCount]; omega
        · exact le_trans (ih (attempt + 1) _ _) (by omega)

/-- Every wait recorded by the `api/evaluate.js` loop satisfies
`goodWaitV1`. -/
theorem callLoopV1_waits_good (o : Nat → AttemptOutcome) (j : Nat → Nat) (m : Nat) :
    ∀ (fuel attempt : Nat) (lastErr : String) (tr : List RetryEvent),
      (∀ e ∈ tr, goodWaitV1 o j m e) →
      ∀ e ∈ (callLoopV1 o j m attempt fuel lastErr tr).waits, goodWaitV1 o j m e := by
  intro fuel
  induction fuel with
  | zero => intro attempt lastErr tr htr; simpa [callLoopV1, CallResult.waits] using htr
  | succ f ih =>
    intro attempt lastErr tr htr
    simp only [callLoopV1]
    split
    · simpa [CallResult.waits] using htr
    · rename_i r heq
      split
      · simpa [CallResult.waits] using htr
      · split
        · simpa [CallResult.waits] using htr
        · rename_i hcond
          apply ih
          intro e he
          rcases List.mem_append.mp he with he | he
          · exact htr e he
          · rcases List.mem_singleton.mp he with rfl
            push_neg at hcond
            exact ⟨by omega, by omega, r, by simpa using heq, rfl, rfl, by simp⟩

/-- The `part_005` loop issues at most `attempt + fuel` attempts. -/
theorem callLoopP5_attempts_le (o : Nat → AttemptOutcome) (j : Nat → Nat) (m : Nat) :
    ∀ (fuel attempt : Nat) (lastErr : String) (tr : List RetryEvent),
      (callLoopP5 o j m attempt fuel lastErr tr).attemptCount ≤ attempt + fuel := by
  intro fuel
  induction fuel with
  | zero => intro attempt lastErr tr; simp [callLoopP5, CallResult.attemptCount]
  | succ f ih =>
    intro attempt lastErr tr
    simp only [callLoopP5]
    split
    · split
      · simp only [CallResult.attemptCount]; omega
      · exact le_trans (ih (attempt + 1) _ _) (by omega)
    · split
      · simp only [CallResult.attemptCount]; omega
      · split
        · simp only [CallResult.attemptCount]; omega
        · exact le_trans (ih (attempt + 1) _ _) (by omega)

/-- Every wait recorded by the `part_005` loop satisfies `goodWaitP5`. -/
theorem callLoopP5_waits_good (o : Nat → AttemptOutcome) (j : Nat → Nat) (m : Nat) :
    ∀ (fuel attempt : Nat) (lastErr : String) (tr : List RetryEvent),
      (∀ e ∈ tr, goodWaitP5 o j m e) →
      ∀ e ∈ (callLoopP5 o j m attempt fuel lastErr tr).waits, goodWaitP5 o j m e := by
  intro fuel
  induction fuel with
  | zero => intro attempt lastErr tr htr; simpa [callLoopP5, CallResult.waits] using htr
  | succ f ih =>
    intro attempt lastErr tr htr
    simp only [callLoopP5]
    split
    · rename_i msg heq
      split
      · simpa [CallResult.waits] using htr
      · rename_i hcond
        apply ih
        intro e he
        rcases List.mem_append.mp he with he | he
        · exact htr e he
        · rcases List.mem_singleton.mp he with rfl
          exact ⟨by omega, by omega, ⟨msg, by simpa using heq⟩, rfl⟩
    · rename_i r heq
      split
      · simpa [CallResult.waits] using htr
      · split
        · simpa [CallResult.waits] using htr
        · rename_i hcond
          apply ih
          intro e he
          rcases List.mem_append.mp he with he | he
          · exact htr e he
          · rcases List.mem_singleton.mp he with rfl
            push_neg at hcond
            exact ⟨by omega, by omega, r, by simpa using heq, rfl, rfl, by simp⟩

/-- The `part_005` loop never lets an exception escape: its try/catch
covers every attempt. -/
theorem callLoopP5_not_thrown (o : Nat → AttemptOutcome) (j : Nat → Nat) (m : Nat) :
    ∀ (fuel attempt : Nat) (lastErr : String) (tr : List RetryEvent),
      (callLoopP5 o j m attempt fuel lastErr tr).isThrown = false := by
  intro fuel
  induction fuel with
  | zero => intro attempt lastErr tr; simp [callLoopP5, CallResult.isThrown]
  | succ f ih =>
    intro attempt lastErr tr
    simp only [callLoopP5]
    split
    · split
      · simp [CallResult.isThrown]
      · exact ih (attempt + 1) _ _
    · split
      · simp [CallResult.isThrown]
      · split
        · simp [CallResult.isThrown]
        · exact ih (attempt + 1) _ _

/-- `indexOf` finds the first occurrence: prefixing a list free of the
sought character shifts the index by the prefix length. -/
theorem idxOfChar_append_cons (c : Char) (p t : List Char) (hp : c ∉ p) :
    idxOfChar c (p ++ c :: t) = some p.length := by
  induction p with
  | nil => simp [idxOfChar]
  | cons x p' ih =>
    rw [List.mem_cons, not_or] at hp
    obtain ⟨hx, hp'⟩ := hp
    have hxc : (x == c) = false := by
      simp only [beq_eq_false_iff_ne]
      exact fun h => hx h.symm
    simp [idxOfChar, hxc, ih hp']

/-- For a non-null document the sanitizer's map runs its body. -/
theorem sanitizeDoc_eq_body (d : Json) (hnull : d ≠ Json.null) :
    sanitizeDoc d = sanitizeDocBody d := by
  cases d
  · exact absurd rfl hnull
  all_goals rfl

/-- When a document's `text` is a string or falsy, the sanitizer body
succeeds and truncates the text to 3000 characters. -/
theorem sanitizeDocBody_spec (d : Json)
    (htext : ∀ tv, jsGet d "text" = some tv → jsTruthy tv = true → ∃ s, tv = Json.str s) :
    ∃ s0 : String, sanitizeDocBody d =
      some (Json.obj (objInsert (spreadFields d) "text"
        (Json.str (String.mk (s0.data.take 3000))))) := by
  cases hget : jsGet d "text" with
  | none => exact ⟨"", by simp [sanitizeDocBody, hget]⟩
  | some tv =>
    by_cases htv : jsTruthy tv = true
    · obtain ⟨s, rfl⟩ := htext tv hget htv
      exact ⟨s, by simp [sanitizeDocBody, hget, htv]⟩
    · exact ⟨"", by simp [sanitizeDocBody, hget, htv]⟩

/-- Looking up the inserted key finds the inserted value. -/
theorem lookupField_objInsert_self (fs : List (String × Json)) (k : String) (v : Json) :
    lookupField (objInsert fs k v) k = some v := by
  induction fs with
  | nil => simp [objInsert, lookupField]
  | cons kv t ih =>
    obtain ⟨k', v'⟩ := kv
    by_cases h : k' = k
    · subst h; simp [objInsert, lookupField]
    · have hb : (k' == k) = false := by simp [h]
      simp [objInsert, lookupField, hb, ih]

/-- Inserting one key leaves every other key's lookup unchanged. -/
theorem lookupField_objInsert_other (fs : List (String × Json)) (k : String) (v : Json)
    (k' : String) (h : k' ≠ k) :
    lookupField (objInsert fs k v) k' = lookupField fs k' := by
  induction fs with
  | nil =>
    have hb : (k == k') = false := by simp [Ne.symm h]
    simp [objInsert, lookupField, hb]
  | cons kv t ih =>
    obtain ⟨k2, v2⟩ := kv
    by_cases h2 : k2 = k
    · subst h2
      have hb : (k2 == k') = false := by simp [Ne.symm h]
      simp [objInsert, lookupField, hb]
    · have hb2 : (k2 == k) = false := by simp [h2]
      simp [objInsert, lookupField, hb2, ih]

/-- Whenever the handler reaches the upstream call, the referral it put
into the prompt is exactly the output of `sanitizeReferral`. -/
theorem handler_call_shape (ctx : HandlerCtx) (o : Nat → AttemptOutcome) (j : Nat → Nat) :
    (handler ctx o j).didCall = false ∨
    ∃ sr, sanitizeReferral ((referralOf ctx).getD Json.null) = some sr ∧
      (handler ctx o j).sentReferral = some sr := by
  simp only [handler]
  split
  · exact Or.inl rfl
  · split
    · exact Or.inl rfl
    · split
      · exact Or.inl rfl
      · split
        · exact Or.inl rfl
        · rename_i sr heq
          split
          · exact Or.inl rfl
          · exact Or.inr ⟨sr, heq, rfl⟩

/-- Without the `debug=1` query parameter and without an `x-debug` header
of `"1"` or `"true"`, the debug flag stays off. -/
theorem computeDebug_eq_false (dp xd : Option String) (h1 : dp ≠ some "1")
    (h2 : xd ≠ some "1") (h3 : xd ≠ some "true") : computeDebug dp xd = false := by
  simp [computeDebug, h1, h2, h3]

/-- With the debug flag off, the extraction stage never attaches `raw`. -/
theorem respondParsed_raw_none (content : String) :
    (respondParsed false content).raw = none := by
  cases h : extractContent content <;> simp [respondParsed, h]

/-- With the debug flag off, no handler response branch attaches `raw`. -/
theorem respondAfterCall_raw_none (cr : CallResult) :
    (respondAfterCall false cr).raw = none := by
  cases cr with
  | okResp r n tr => exact respondParsed_raw_none r.content
  | errResp r e n tr => rfl
  | exhausted e n tr => rfl
  | thrown m n tr => rfl

/-- Claim C1 counterexample: a completeness payload whose only field is a
mistyped `score` (a string) is NOT rejected — the handler returns it to
the caller as a successful 200 result with `ok: true`, after consuming a
throttle token and making the upstream call.  No `SchemaViolation` path
exists in the code. -/
theorem c1_counterexample :
    handler ⟨"POST", none, none,
        Json.obj [("task", Json.str "completeness"),
                  ("referral", Json.obj [("id", Json.str "r1")])], true⟩
      (fun _ => .resp ⟨200, none, "\x7b\"score\": \"high\"\x7d", ""⟩) (fun _ => 0) =
    ⟨⟨200, true, none, some (Json.obj [("score", Json.str "high")]), none⟩, true, true,
      some (Json.obj [("id", Json.str "r1")])⟩ := rfl

/-- Claim C1 (amended): the gateway performs no per-task schema
validation at all.  On the full request path, whatever payload the
extractor parses — for any task, with fields missing or mistyped — is
returned unchanged to the caller as a successful 200 result (so nothing
is coerced or defaulted either), and the only extraction-stage rejections
are the two 502 malformed-response errors (no braces found, or the brace
span fails to parse); no `SchemaViolation` error exists. -/
theorem c1_amended (ctx : HandlerCtx) (o : Nat → AttemptOutcome) (j : Nat → Nat)
    (r : HttpResp) (n : Nat) (tr : List RetryEvent) (v : Json)
    (hm : ctx.method = "POST")
    (ht : truthyO (taskOf ctx) = true) (hr : truthyO (referralOf ctx) = true)
    (hk : ctx.hasKey = true)
    (hsan : (sanitizeReferral ((referralOf ctx).getD Json.null)).isSome = true)
    (hsup : taskSupported (taskOf ctx) = true)
    (hdbg : computeDebug ctx.debugParam ctx.xDebug = false)
    (hcall : callV1 o j = .okResp r n tr)
    (hx : extractContent r.content = .parsed v) :
    (handler ctx o j).response = ⟨200, true, none, some v, none⟩ ∧
    (∀ content : String, extractContent content = .noJson →
      respondParsed false content =
        ⟨502, false, some "Model did not return JSON", none, none⟩) ∧
    (∀ content : String, extractContent content = .parseFail →
      respondParsed false content =
        ⟨502, false, some "Failed to parse JSON from model", none, none⟩) := by
  refine ⟨?_, ?_, ?_⟩
  · obtain ⟨sr, hsr⟩ := Option.isSome_iff_exists.mp hsan
    simp only [handler, hm, hdbg]
    rw [if_neg (by simp), if_neg (by simp [ht, hr]), if_neg (by simp [hk]), hsr]
    simp [hsup, hcall, respondAfterCall, respondParsed, hx]
  · intro content h; simp [respondParsed, h]
  · intro content h; simp [respondParsed, h]

/-- Claim C1 witness: the amended statement at a concrete request whose
upstream payload is `{"ok":true}` — not remotely an `auth` result, yet
returned as a 200 success — plus the two 502 branches at concrete
malformed contents. -/
theorem c1_amended_witness :
    (handler ⟨"POST", none, none,
        Json.obj [("task", Json.str "auth"), ("referral", Json.obj [("id", Json.str "r1")])],
        true⟩
      (fun _ => .resp ⟨200, none, "\x7b\"ok\":true\x7d", ""⟩) (fun _ => 0)).response
      = ⟨200, true, none, some (Json.obj [("ok", Json.bool true)]), none⟩ ∧
    respondParsed false "Sure thing." =
      ⟨502, false, some "Model did not return JSON", none, none⟩ ∧
    respondParsed false "\x7d\x7b" =
      ⟨502, false, some "Failed to parse JSON from model", none, none⟩ := by
  have h := c1_amended ⟨"POST", none, none,
      Json.obj [("task", Json.str "auth"), ("referral", Json.obj [("id", Json.str "r1")])],
      true⟩
    (fun _ => .resp ⟨200, none, "\x7b\"ok\":true\x7d", ""⟩) (fun _ => 0)
    ⟨200, none, "\x7b\"ok\":true\x7d", ""⟩ 1 [] (Json.obj [("ok", Json.bool true)])
    rfl rfl rfl rfl rfl rfl rfl rfl rfl
  exact ⟨h.1, h.2.1 _ rfl, h.2.2 _ rfl⟩

/-- Claim C2 counterexample: the gateway does NOT clamp `score` into
[0,100] — a parsed payload with `score: 150` is returned with score 150
(not 100) as a 200 success, and `score: -5` is returned with -5 (not 0). -/
theorem c2_counterexample :
    (handler ⟨"POST", none, none,
        Json.obj [("task", Json.str "completeness"),
                  ("referral", Json.obj [("id", Json.str "r1")])], true⟩
      (fun _ => .resp ⟨200, none, "\x7b\"score\": 150\x7d", ""⟩)
      (fun _ => 0)).response.status = 200
    ∧
    responseScore (handler ⟨"POST", none, none,
        Json.obj [("task", Json.str "completeness"),
                  ("referral", Json.obj [("id", Json.str "r1")])], true⟩
      (fun _ => .resp ⟨200, none, "\x7b\"score\": 150\x7d", ""⟩) (fun _ => 0)).response
      = some (Json.num 150 0)
    ∧
    responseScore (handler ⟨"POST", none, none,
        Json.obj [("task", Json.str "completeness"),
                  ("referral", Json.obj [("id", Json.str "r1")])], true⟩
      (fun _ => .resp ⟨200, none, "\x7b\"score\": -5\x7d", ""⟩) (fun _ => 0)).response
      = some (Json.num (-5) 0) := ⟨rfl, rfl, rfl⟩

/-- Claim C2 (amended): the gateway returns the `score` field of every
successfully parsed payload exactly as parsed — no clamping into [0,100],
and no other change — because the parsed payload is passed through
verbatim. -/
theorem c2_amended (debug : Bool) (content : String) (v : Json)
    (h : extractContent content = .parsed v) :
    responseScore (respondParsed debug content) = jsGet v "score" := by
  simp [respondParsed, h, responseScore]

/-- Claim C2 witness: the amended statement at the boundary payload
`{"score": 150}` — the returned score is 150, untouched. -/
theorem c2_amended_witness :
    responseScore (respondParsed false "\x7b\"score\": 150\x7d") = some (Json.num 150 0) := by
  have h := c2_amended false "\x7b\"score\": 150\x7d" (Json.obj [("score", Json.num 150 0)]) rfl
  exact h.trans rfl

/-- Claim C3 counterexample: a 429 carrying `retry-after: 5` (seconds) is
followed by a wait of only 4000 ms, because `api/evaluate.js` caps the
delay at 4000 ms AFTER substituting the retry-after value — less than the
5000 ms the claim requires. -/
theorem c3_counterexample :
    callV1 (fun n => if n = 0 then .resp ⟨429, some 5, "", "rate limited"⟩
                     else .resp ⟨200, none, "ok", ""⟩) (fun _ => 0) =
      .okResp ⟨200, none, "ok", ""⟩ 2 [.httpWait 1 429 (some 5) 4000]
    ∧ 4000 < 5 * 1000 := ⟨rfl, by decide⟩

/-- Claim C3 (amended): after a 429 carrying `retry-after: s`,
`api/evaluate.js` waits at least `min(4000, s*1000)` milliseconds — the
full `s` seconds only up to its 4-second cap — while the `part_005`
variant always waits at least the full `s * 1000` milliseconds (stated in
its 1/80 ms delay unit). -/
theorem c3_amended :
    (∀ (o : Nat → AttemptOutcome) (j : Nat → Nat) (a s d : Nat),
      RetryEvent.httpWait a 429 (some s) d ∈ (callV1 o j).waits →
      min 4000 (s * 1000) ≤ d) ∧
    (∀ (o : Nat → AttemptOutcome) (j : Nat → Nat) (a s d : Nat),
      RetryEvent.httpWait a 429 (some s) d ∈ (callP5 o j).waits →
      80 * (s * 1000) ≤ d) := by
  constructor
  · intro o j a s d hmem
    have hg := callLoopV1_waits_good o j 4 4 0 "" [] (by simp) _ hmem
    obtain ⟨-, -, r, -, -, hra, hd⟩ := hg
    rw [hd, nextDelayV1, ← hra]
    simp only [Option.getD_some]
    by_cases hs : s = 0
    · subst hs; simp
    · rw [if_pos hs]
      exact min_le_min (le_refl _) (Nat.le_add_right _ _)
  · intro o j a s d hmem
    have hg := callLoopP5_waits_good o j 5 5 0 "" [] (by simp) _ hmem
    obtain ⟨-, -, r, -, hst, hra, hd⟩ := hg
    rw [← hst, ← hra] at hd
    simp [nextDelayP5Base] at hd
    by_cases hs : 0 < s
    · rw [if_pos hs] at hd; omega
    · omega

/-- Claim C3 witness: the amended bounds at a concrete run whose first
attempt gets a 429 with `retry-after: 5` — the version-1 wait is 4000 ms
(`min(4000, 5000)`), the `part_005` wait is 400000 units = 5000 ms. -/
theorem c3_amended_witness :
    min 4000 (5 * 1000) ≤ 4000 ∧ 80 * (5 * 1000) ≤ 400000 := by
  have h := c3_amended
  constructor
  · exact h.1 (fun n => if n = 0 then .resp ⟨429, some 5, "", "rl"⟩
      else .resp ⟨200, none, "ok", ""⟩) (fun _ => 0) 1 5 4000 (by decide)
  · exact h.2 (fun n => if n = 0 then .resp ⟨429, some 5, "", "rl"⟩
      else .resp ⟨200, none, "ok", ""⟩) (fun _ => 0) 1 5 400000 (by decide)

/-- Claim C4 counterexample: in `api/evaluate.js` a transport failure is
NOT retried — the `fetch` is not wrapped in try/catch, so the exception
escapes `callOpenAIWithRetries` after a single attempt with no backoff,
and the handler's top-level catch turns it into a 500 "Server error". -/
theorem c4_counterexample :
    callV1 (fun _ => .netErr "socket hang up") (fun _ => 0) =
      .thrown "socket hang up" 1 []
    ∧
    (handler ⟨"POST", none, none,
        Json.obj [("task", Json.str "auth"),
                  ("referral", Json.obj [("id", Json.str "r1")])], true⟩
      (fun _ => .netErr "socket hang up") (fun _ => 0)).response =
      errResponse 500 "Server error" := ⟨rfl, rfl⟩

/-- Claim C4 (amended): only the `part_005` variant treats transport
failures as retryable — with its own backoff schedule
`min(5000, 1000 * 1.5^(attempt-1))` ms (not the schedule used for HTTP
errors) — and it returns a terminal `"Network error: ..."` failure after
exhausting its 5 attempts, never letting an exception escape; in
`api/evaluate.js` the failure escapes the orchestrator unretried on the
first attempt. -/
theorem c4_amended :
    (∀ (o : Nat → AttemptOutcome) (j : Nat → Nat), (callP5 o j).isThrown = false) ∧
    (∀ (msg : String) (j : Nat → Nat),
      callP5 (fun _ => .netErr msg) j =
        .exhausted ("Network error: " ++ msg) 5
          [.netWait 1 80000, .netWait 2 120000, .netWait 3 180000, .netWait 4 270000]) ∧
    (∀ (msg : String) (o : Nat → AttemptOutcome) (j : Nat → Nat),
      o 0 = .netErr msg → callV1 o j = .thrown msg 1 []) := by
  refine ⟨?_, ?_, ?_⟩
  · intro o j; exact callLoopP5_not_thrown o j 5 5 0 "" []
  · intro msg j; rfl
  · intro msg o j h0
    show callLoopV1 o j 4 0 (3 + 1) "" [] = _
    simp only [callLoopV1, h0]

/-- Claim C4 witness: the amended statement's escape clause at a concrete
transport failure. -/
theorem c4_amended_witness :
    callV1 (fun _ => .netErr "ECONNRESET") (fun _ => 0) = .thrown "ECONNRESET" 1 [] := by
  exact c4_amended.2.2 "ECONNRESET" _ _ rfl

/-- Claim C5: for every upstream response with a non-retryable status
(any 4xx other than 429), `callOpenAIWithRetries` makes exactly one
attempt and returns a terminal failure carrying that response, with no
backoff wait and no further outbound request. -/
theorem c5_nonretryable (o : Nat → AttemptOutcome) (j : Nat → Nat) (r : HttpResp)
    (h0 : o 0 = .resp r) (h4 : 400 ≤ r.status) (h5 : r.status < 500)
    (h429 : r.status ≠ 429) :
    callV1 o j = .errResp r r.errText 1 [] := by
  show callLoopV1 o j 4 0 (3 + 1) "" [] = _
  simp only [callLoopV1, h0]
  rw [if_neg (by omega), if_pos (Or.inl (by omega))]

/-- Claim C5 witness: a concrete HTTP 400 — one attempt, terminal
failure, empty wait trace. -/
theorem c5_witness :
    callV1 (fun _ => .resp ⟨400, none, "", "Bad Request"⟩) (fun _ => 0) =
      .errResp ⟨400, none, "", "Bad Request"⟩ "Bad Request" 1 [] := by
  exact c5_nonretryable _ _ _ rfl (by decide) (by decide) (by decide)

/-- Claim C6: in `api/evaluate.js`, every backoff wait for a retryable
failure without a `retry-after` value is exactly
`400 * 2^(attempt-1) + jitter` milliseconds with `jitter ∈ [0, 200)`,
never exceeding the 4-second cap, and at most 4 attempts are made in
total; the `part_005` variant keeps a finite ceiling of 5 attempts and
its pre-jitter 429 delay strictly grows with the attempt count (under
the jitter bound `Math.floor(Math.random() * min(1000, delay/10))`
guarantees, stated in its 1/80 ms unit). -/
theorem c6_backoff_schedule :
    (∀ (o : Nat → AttemptOutcome) (j : Nat → Nat), (∀ n, j n < 200) →
      ∀ (a st d : Nat) (ra : Option Nat),
        RetryEvent.httpWait a st ra d ∈ (callV1 o j).waits → ra.getD 0 = 0 →
        d = 400 * 2 ^ (a - 1) + j (a - 1) ∧ j (a - 1) < 200 ∧ d ≤ 4000) ∧
    (∀ (o : Nat → AttemptOutcome) (j : Nat → Nat), (callV1 o j).attemptCount ≤ 4) ∧
    (∀ (o : Nat → AttemptOutcome) (j : Nat → Nat), (callP5 o j).attemptCount ≤ 5) ∧
    (∀ (a j1 j2 : Nat), 1 ≤ a → a + 1 ≤ 4 →
      800 * j1 < min 800000 (nextDelayP5Base 429 0 a) →
      nextDelayP5Base 429 0 a + 80 * j1 < nextDelayP5Base 429 0 (a + 1) + 80 * j2) := by
  refine ⟨?_, ?_, ?_, ?_⟩
  · intro o j hj a st d ra hmem hz
    have hg := callLoopV1_waits_good o j 4 4 0 "" [] (by simp) _ hmem
    obtain ⟨h1, h4, r, -, -, hra, hd⟩ := hg
    rw [← hra, hz] at hd
    simp [nextDelayV1] at hd
    have hjb := hj (a - 1)
    interval_cases a <;> norm_num at hd hjb ⊢ <;> omega
  · intro o j
    exact le_trans (callLoopV1_attempts_le o j 4 4 0 "" []) (by omega)
  · intro o j
    exact le_trans (callLoopP5_attempts_le o j 5 5 0 "" []) (by omega)
  · intro a j1 j2 h1 h4 hj1
    have h3 : a ≤ 3 := by omega
    simp only [nextDelayP5Base, if_pos rfl] at hj1 ⊢
    interval_cases a <;> norm_num at hj1 ⊢ <;> omega

/-- Claim C6 witness: a concrete run where attempt 1 hits a 500 with no
`retry-after` and jitter 7 — the wait is 407 = 400 * 2^0 + 7 ms — plus
the attempt ceilings and one step of the `part_005` 429 delay growth. -/
theorem c6_witness :
    (407 = 400 * 2 ^ (1 - 1) + 7 ∧ 7 < 200 ∧ 407 ≤ 4000) ∧
    (callV1 (fun n => if n = 0 then .resp ⟨500, none, "", "ise"⟩
        else .resp ⟨200, none, "ok", ""⟩) (fun _ => 7)).attemptCount ≤ 4 ∧
    (callP5 (fun n => if n = 0 then .resp ⟨500, none, "", "ise"⟩
        else .resp ⟨200, none, "ok", ""⟩) (fun _ => 7)).attemptCount ≤ 5 ∧
    nextDelayP5Base 429 0 1 + 80 * 0 < nextDelayP5Base 429 0 2 + 80 * 0 := by
  have h := c6_backoff_schedule
  refine ⟨?_, h.2.1 _ _, h.2.2.1 _ _, h.2.2.2 1 0 0 (by decide) (by decide) (by decide)⟩
  exact h.1 (fun n => if n = 0 then .resp ⟨500, none, "", "ise"⟩
      else .resp ⟨200, none, "ok", ""⟩)
    (fun _ => 7) (fun _ => (by decide : (7:Nat) < 200)) 1 500 407 none (by decide) rfl

/-- Claim C7: the extractor takes the substring from the first opening
brace to the last closing brace and parses it — if either brace is
absent it fails with the "Model did not return JSON" 502, if the span
fails to parse it fails with the "Failed to parse JSON" 502, and a valid
payload embedded in surrounding prose (the prose before it containing no
opening brace, the prose after it no closing brace, so the payload is the
outermost brace span) is extracted exactly. -/
theorem c7_extractor :
    (∀ content : String,
      idxOfChar lbrace content.data = none ∨ lastIdxOfChar rbrace content.data = none →
      extractContent content = .noJson) ∧
    (∀ (content : String) (st en : Nat),
      idxOfChar lbrace content.data = some st →
      lastIdxOfChar rbrace content.data = some en →
      parseJson (String.mk (jsSlice content.data st (en + 1))) = none →
      extractContent content = .parseFail) ∧
    (∀ (content : String) (p mid q : List Char) (v : Json),
      content.data = p ++ (lbrace :: (mid ++ [rbrace])) ++ q →
      lbrace ∉ p → rbrace ∉ q →
      parseJson (String.mk (lbrace :: (mid ++ [rbrace]))) = some v →
      extractContent content = .parsed v) := by
  refine ⟨?_, ?_, ?_⟩
  · intro content h
    rcases h with h | h
    · cases h2 : lastIdxOfChar rbrace content.data <;> simp [extractContent, h, h2]
    · cases h1 : idxOfChar lbrace content.data <;> simp [extractContent, h1, h]
  · intro content st en h1 h2 h3
    simp [extractContent, h1, h2, h3]
  · intro content p mid q v hcontent hp hq hparse
    have h1 : idxOfChar lbrace content.data = some p.length := by
      rw [hcontent, List.append_assoc, List.cons_append]
      exact idxOfChar_append_cons lbrace p _ hp
    have hrev : content.data.reverse =
        q.reverse ++ rbrace :: ((mid.reverse ++ [lbrace]) ++ p.reverse) := by
      rw [hcontent]
      simp [List.reverse_append]
    have hlen : content.data.length = p.length + mid.length + 2 + q.length := by
      rw [hcontent]; simp; omega
    have h2 : lastIdxOfChar rbrace content.data = some (p.length + mid.length + 1) := by
      rw [lastIdxOfChar, hrev, idxOfChar_append_cons rbrace q.reverse _
        (by simpa using hq)]
      simp [hlen]
    have hslice : jsSlice content.data p.length (p.length + mid.length + 1 + 1) =
        lbrace :: (mid ++ [rbrace]) := by
      rw [jsSlice, hcontent, List.append_assoc, List.drop_left]
      rw [show p.length + mid.length + 1 + 1 - p.length = mid.length + 2 by omega]
      exact List.take_left' (by simp)
    simp [extractContent, h1, h2, hslice, hparse]

/-- Claim C7 witness: scenario A — the auth payload embedded after
`Sure! ` is extracted exactly, prose without braces is a 502, and a
brace span that is not JSON is the other 502. -/
theorem c7_witness :
    extractContent "Sure! \x7b\"band\":\"high\",\"reason\":\"payer requires prior auth\",\"checklist\":[\"signed order\",\"notes\"]\x7d" =
      .parsed (Json.obj [("band", Json.str "high"),
        ("reason", Json.str "payer requires prior auth"),
        ("checklist", Json.arr [Json.str "signed order", Json.str "notes"])]) ∧
    extractContent "The referral looks complete." = .noJson ∧
    extractContent "\x7d\x7b" = .parseFail := by
  refine ⟨?_, c7_extractor.1 "The referral looks complete." (Or.inl rfl),
    c7_extractor.2.1 "\x7d\x7b" 1 0 rfl rfl rfl⟩
  exact c7_extractor.2.2 _ "Sure! ".data
    "\"band\":\"high\",\"reason\":\"payer requires prior auth\",\"checklist\":[\"signed order\",\"notes\"]".data
    "".data _ rfl (by decide) (by decide) rfl

/-- Claim C8: for every referral whose documents are well-formed (each
kept document is not null and its `text`, when truthy, is a string — the
shape the data model guarantees), the Payload Sanitizer succeeds and
returns the referral with at most the first document retained, that
document's text truncated to at most 3000 characters, and every other
field untouched; immutability of the caller's value is intrinsic to the
embedding.  Moreover, whenever the handler makes the outbound call, the
referral embedded in the prompt is exactly the sanitizer's output, so
sanitization happens before any outbound call. -/
theorem c8_sanitizer :
    (∀ (r : Json) (ds : List Json),
      jsGet r "documents" = some (Json.arr ds) →
      (∀ d ∈ ds.take 1, d ≠ Json.null ∧
        (∀ tv, jsGet d "text" = some tv → jsTruthy tv = true → ∃ s, tv = Json.str s)) →
      ∃ ds' : List Json, sanitizeReferral r = some (jsSet r "documents" (Json.arr ds')) ∧
        ds'.length ≤ 1 ∧
        (∀ d' ∈ ds', ∃ s', jsGet d' "text" = some (Json.str s') ∧ s'.data.length ≤ 3000) ∧
        (∀ k, k ≠ "documents" →
          jsGet (jsSet r "documents" (Json.arr ds')) k = jsGet r k)) ∧
    (∀ (ctx : HandlerCtx) (o : Nat → AttemptOutcome) (j : Nat → Nat),
      (handler ctx o j).didCall = true →
      ∃ sr, sanitizeReferral ((referralOf ctx).getD Json.null) = some sr ∧
        (handler ctx o j).sentReferral = some sr) := by
  constructor
  · intro r ds hdocs hwf
    have htr : jsTruthy r = true := by
      cases r <;> simp_all [jsGet, jsTruthy]
    cases ds with
    | nil =>
      refine ⟨[], ?_, by simp, by simp, ?_⟩
      · simp [sanitizeReferral, htr, hdocs, mapDocs]
      · intro k hk
        cases r <;> simp_all [jsGet, jsSet]
        exact lookupField_objInsert_other _ _ _ _ hk
    | cons d rest =>
      obtain ⟨hnull, htext⟩ := hwf d (by simp)
      obtain ⟨s0, hbody⟩ := sanitizeDocBody_spec d htext
      have hdoc : sanitizeDoc d = some (Json.obj (objInsert (spreadFields d) "text"
          (Json.str (String.mk (s0.data.take 3000))))) := by
        rw [sanitizeDoc_eq_body d hnull, hbody]
      refine ⟨[Json.obj (objInsert (spreadFields d) "text"
          (Json.str (String.mk (s0.data.take 3000))))], ?_, by simp, ?_, ?_⟩
      · simp [sanitizeReferral, htr, hdocs, mapDocs, hdoc]
      · intro d' hd'
        rcases List.mem_singleton.mp hd' with rfl
        refine ⟨String.mk (s0.data.take 3000), ?_, ?_⟩
        · simp [jsGet, lookupField_objInsert_self]
        · simpa using List.length_take_le 3000 s0.data
      · intro k hk
        cases r <;> simp_all [jsGet, jsSet]
        exact lookupField_objInsert_other _ _ _ _ hk
  · intro ctx o j h
    rcases handler_call_shape ctx o j with hc | hc
    · rw [h] at hc; cases hc
    · exact hc

/-- Claim C8 witness: scenario E — a referral with five attached
documents, the first carrying a 10,000-character text, is sanitized to
one document with text truncated to at most 3000 characters, and the
prompt of a concrete bundle request embeds exactly the sanitized
referral. -/
theorem c8_witness :
    (∃ ds' : List Json, sanitizeReferral exReferral =
        some (jsSet exReferral "documents" (Json.arr ds')) ∧
      ds'.length ≤ 1 ∧
      (∀ d' ∈ ds', ∃ s', jsGet d' "text" = some (Json.str s') ∧ s'.data.length ≤ 3000) ∧
      (∀ k, k ≠ "documents" →
        jsGet (jsSet exReferral "documents" (Json.arr ds')) k = jsGet exReferral k)) ∧
    (∃ sr, sanitizeReferral ((referralOf ⟨"POST", none, none,
        Json.obj [("task", Json.str "bundle"), ("referral", exReferral)], true⟩).getD
          Json.null) = some sr ∧
      (handler ⟨"POST", none, none,
        Json.obj [("task", Json.str "bundle"), ("referral", exReferral)], true⟩
        (fun _ => .resp ⟨200, none, "\x7b\x7d", ""⟩) (fun _ => 0)).sentReferral = some sr) := by
  constructor
  · apply c8_sanitizer.1 exReferral [exDoc1, exDoc 2, exDoc 3, exDoc 4, exDoc 5] rfl
    intro d hd
    simp [List.take] at hd
    subst hd
    refine ⟨by simp [exDoc1], ?_⟩
    intro tv htv _
    rw [show jsGet exDoc1 "text" = some (Json.str longText) from rfl] at htv
    exact ⟨longText, (Option.some.inj htv).symm⟩
  · exact c8_sanitizer.2 _ _ _ rfl

/-- Claim C9: when neither the `debug=1` query parameter nor an `x-debug`
header of `"1"`/`"true"` is present, no handler response — success or any
error branch — includes the raw upstream text; diagnostic mode is off by
default. -/
theorem c9_no_raw_by_default (ctx : HandlerCtx) (o : Nat → AttemptOutcome) (j : Nat → Nat)
    (h1 : ctx.debugParam ≠ some "1") (h2 : ctx.xDebug ≠ some "1")
    (h3 : ctx.xDebug ≠ some "true") :
    (handler ctx o j).response.raw = none := by
  have hdbg := computeDebug_eq_false ctx.debugParam ctx.xDebug h1 h2 h3
  simp only [handler, hdbg]
  split
  · rfl
  · split
    · rfl
    · split
      · rfl
      · split
        · rfl
        · split
          · rfl
          · exact respondAfterCall_raw_none _

/-- Claim C9 witness: a concrete successful request with an `x-debug`
header of `"0"` and no `debug` query parameter — the response carries no
raw text. -/
theorem c9_witness :
    (handler ⟨"POST", none, some "0", Json.obj [("task", Json.str "completeness"),
        ("referral", Json.obj [("id", Json.str "r2")])], true⟩
      (fun _ => .resp ⟨200, none, "\x7b\"score\":55\x7d", ""⟩)
      (fun _ => 0)).response.raw = none := by
  exact c9_no_raw_by_default _ _ _ (by decide) (by decide) (by decide)

/-- Claim C10 counterexample: a POST request with the unsupported task
`"xyz"` is not always answered with a 400 — with the API key configured
but a referral whose first document is `null`, `sanitizeReferral` (line
140, which runs before the task chain) throws reading `.text` of `null`
and the top-level catch answers 500 "Server error"; with the key
missing, the key check (line 135) answers its 500 first.  No throttle
token is consumed and no outbound call is made in either case, but the
status is 500, not 400. -/
theorem c10_counterexample :
    handler ⟨"POST", none, none,
        Json.obj [("task", Json.str "xyz"),
                  ("referral", Json.obj [("documents", Json.arr [Json.null])])], true⟩
      (fun _ => .resp ⟨200, none, "", ""⟩) (fun _ => 0) =
      ⟨errResponse 500 "Server error", false, false, none⟩
    ∧
    handler ⟨"POST", none, none,
        Json.obj [("task", Json.str "xyz"),
                  ("referral", Json.obj [("id", Json.str "r1")])], false⟩
      (fun _ => .resp ⟨200, none, "", ""⟩) (fun _ => 0) =
      ⟨errResponse 500 "Server missing OPENAI_API_KEY", false, false, none⟩
    ∧ (500 : Nat) ≠ 400 := ⟨rfl, rfl, by decide⟩

/-- Claim C10 (amended): a POST request whose body lacks a truthy `task`
or `referral` gets an immediate 400 with no throttle token consumed and
no outbound call.  A POST request whose task is none of
`completeness`/`auth`/`bundle` likewise never consumes a token and never
makes an outbound call, and always gets an error response — status 400
or 500, never a success — where the 400 is reached exactly when neither
earlier 500 fires first: the key check (line 135) when `OPENAI_API_KEY`
is missing, and the top-level catch when `sanitizeReferral` (line 140)
throws. -/
theorem c10_amended (ctx : HandlerCtx) (o : Nat → AttemptOutcome) (j : Nat → Nat)
    (hm : ctx.method = "POST") :
    (truthyO (taskOf ctx) = false ∨ truthyO (referralOf ctx) = false →
      (handler ctx o j).response.status = 400 ∧ (handler ctx o j).didThrottle = false ∧
      (handler ctx o j).didCall = false) ∧
    (taskSupported (taskOf ctx) = false →
      (handler ctx o j).didThrottle = false ∧ (handler ctx o j).didCall = false ∧
      (handler ctx o j).response.okFlag = false ∧
      ((handler ctx o j).response.status = 400 ∨ (handler ctx o j).response.status = 500)) ∧
    (ctx.hasKey = true → truthyO (taskOf ctx) = true → truthyO (referralOf ctx) = true →
      taskSupported (taskOf ctx) = false →
      (sanitizeReferral ((referralOf ctx).getD Json.null)).isSome = true →
      (handler ctx o j).response.status = 400 ∧ (handler ctx o j).didThrottle = false ∧
      (handler ctx o j).didCall = false) := by
  refine ⟨?_, ?_, ?_⟩
  · intro h
    simp only [handler, hm]
    rw [if_neg (by simp), if_pos h]
    exact ⟨rfl, rfl, rfl⟩
  · intro hsup
    simp only [handler, hm]
    rw [if_neg (by simp)]
    split
    · exact ⟨rfl, rfl, rfl, Or.inl rfl⟩
    · split
      · exact ⟨rfl, rfl, rfl, Or.inr rfl⟩
      · cases hs : sanitizeReferral ((referralOf ctx).getD Json.null) with
        | none => exact ⟨rfl, rfl, rfl, Or.inr rfl⟩
        | some sr => simp [hsup, errResponse]
  · intro hk ht hr hsup hsan
    obtain ⟨sr, hsr⟩ := Option.isSome_iff_exists.mp hsan
    simp only [handler, hm]
    rw [if_neg (by simp), if_neg (by simp [ht, hr]), if_neg (by simp [hk]), hsr]
    simp [hsup, errResponse]

/-- Claim C10 witness: the amended statement at three concrete requests —
a task with no referral (400, no token, no call), the unsupported task
`"xyz"` with a sanitizer-throwing referral (an error with no token and
no call), and the unsupported task `"summarize"` on a well-formed keyed
request (400, no token, no call). -/
theorem c10_amended_witness :
    ((handler ⟨"POST", none, none, Json.obj [("task", Json.str "completeness")], true⟩
        (fun _ => .resp ⟨200, none, "", ""⟩) (fun _ => 0)).response.status = 400 ∧
      (handler ⟨"POST", none, none, Json.obj [("task", Json.str "completeness")], true⟩
        (fun _ => .resp ⟨200, none, "", ""⟩) (fun _ => 0)).didThrottle = false ∧
      (handler ⟨"POST", none, none, Json.obj [("task", Json.str "completeness")], true⟩
        (fun _ => .resp ⟨200, none, "", ""⟩) (fun _ => 0)).didCall = false) ∧
    ((handler ⟨"POST", none, none, Json.obj [("task", Json.str "xyz"),
        ("referral", Json.obj [("documents", Json.arr [Json.null])])], true⟩
        (fun _ => .resp ⟨200, none, "", ""⟩) (fun _ => 0)).didThrottle = false ∧
      (handler ⟨"POST", none, none, Json.obj [("task", Json.str "xyz"),
        ("referral", Json.obj [("documents", Json.arr [Json.null])])], true⟩
        (fun _ => .resp ⟨200, none, "", ""⟩) (fun _ => 0)).didCall = false ∧
      (handler ⟨"POST", none, none, Json.obj [("task", Json.str "xyz"),
        ("referral", Json.obj [("documents", Json.arr [Json.null])])], true⟩
        (fun _ => .resp ⟨200, none, "", ""⟩) (fun _ => 0)).response.okFlag = false ∧
      ((handler ⟨"POST", none, none, Json.obj [("task", Json.str "xyz"),
        ("referral", Json.obj [("documents", Json.arr [Json.null])])], true⟩
        (fun _ => .resp ⟨200, none, "", ""⟩) (fun _ => 0)).response.status = 400 ∨
       (handler ⟨"POST", none, none, Json.obj [("task", Json.str "xyz"),
        ("referral", Json.obj [("documents", Json.arr [Json.null])])], true⟩
        (fun _ => .resp ⟨200, none, "", ""⟩) (fun _ => 0)).response.status = 500)) ∧
    ((handler ⟨"POST", none, none, Json.obj [("task", Json.str "summarize"),
        ("referral", Json.obj [("id", Json.str "r3")])], true⟩
        (fun _ => .resp ⟨200, none, "", ""⟩) (fun _ => 0)).response.status = 400 ∧
      (handler ⟨"POST", none, none, Json.obj [("task", Json.str "summarize"),
        ("referral", Json.obj [("id", Json.str "r3")])], true⟩
        (fun _ => .resp ⟨200, none, "", ""⟩) (fun _ => 0)).didThrottle = false ∧
      (handler ⟨"POST", none, none, Json.obj [("task", Json.str "summarize"),
        ("referral", Json.obj [("id", Json.str "r3")])], true⟩
        (fun _ => .resp ⟨200, none, "", ""⟩) (fun _ => 0)).didCall = false) := by
  exact ⟨(c10_amended _ _ _ rfl).1 (Or.inr rfl),
    (c10_amended _ _ _ rfl).2.1 rfl,
    (c10_amended _ _ _ rfl).2.2 rfl rfl rfl rfl rfl⟩
